import Mathlib

/-!
# Verification of the netpack-installer firmware flash coordinator

Shallow embedding of `src/custom_plugins/netpack_installer/__init__.py`
(class `NetpackInstaller`) and proofs of the specification claims about it.

Modelling conventions:
* Host-side effects (UI notifications, HTTP requests, zip extraction,
  subprocess invocation, error logging, option registration) are recorded as
  an explicit trace of `Event`s, in the order the Python code performs them.
* Exceptions are modelled with `Except`: a Python function that may raise
  returns `Except ε α` together with the trace of the effects it performed
  before raising (Python side effects performed before a raise stay
  performed).
* The module-level `_lock` (`gevent.lock.BoundedSemaphore`) is a boolean
  field `lockHeld` of the coordinator state.  Under gevent's cooperative
  scheduling there is no yield point between the `_lock.locked()` check and
  the `with _lock:` acquisition, so a single flash request's
  check-then-acquire is modelled as one atomic step.
* `db.option(key)` reads are inputs of each request (`Env`); a missing
  option is `none`, and Python falsiness of a port string covers both
  `None` and the empty string.
-/

namespace NetpackInstaller

/-- One entry of the GitHub release feed, with the fields the code reads:
`tag_name`, `draft`, `prerelease` and `assets[i].browser_download_url`
(we keep just the download URL of each asset). -/
structure Release where
  tag_name : String
  draft : Bool
  prerelease : Bool
  assets : List String
deriving DecidableEq, Repr

/-- The host-visible effects the coordinator performs, in program order. -/
inductive Event where
  /-- `rhapi.ui.message_notify(...)` with the given message. -/
  | notify (msg : String)
  /-- The HTTP GET of the release feed in `_get_download_versions`. -/
  | fetchReleases
  /-- The HTTP GET of the firmware archive in `_download_firmware`. -/
  | httpGet (url : String)
  /-- `ZipFile(...).extractall(self._firmware_folder)`. -/
  | extractZip
  /-- Entry into the `with _lock:` block (semaphore acquired). -/
  | acquire
  /-- Exit from the `with _lock:` block (semaphore released, also on
  exceptions, by the context manager). -/
  | release
  /-- `gevent.subprocess.run([... "-p", port, ...])` invoking esptool. -/
  | runSubprocess (port : String)
  /-- `logger.error(process.stdout)`; the argument is `process.stdout`,
  which is `none` when the output was not captured. -/
  | logError (msg : Option String)
  /-- `rhapi.fields.register_option(_netpack_version, ...)` with the
  (label, value) pairs built from `generate_options`. -/
  | registerVersions (opts : List (String × String))
  /-- `rhapi.ui.broadcast_ui("settings")`. -/
  | broadcastUI
deriving DecidableEq, Repr

/-- Exceptions that can escape the download step: a transport failure of
`session.get` (surfacing when `data_green.value.content` is read) or a
corrupt archive (`ZipFile` raising `BadZipFile`). -/
inductive DlFailure where
  | network
  | archive
deriving DecidableEq, Repr

/-- Exceptions `session.get` can raise when fetching release metadata:
a transport-level failure or exceeding the `timeout=5` seconds. -/
inductive FetchExc where
  | transport
  | timeout
deriving DecidableEq, Repr

/-- The mutable coordinator state: `self._downloaded`, `self._versions`,
and the module-level `_lock` (held or free). -/
structure Installer where
  downloaded : Bool
  versions : List Release
  lockHeld : Bool
deriving DecidableEq, Repr

/-- The inputs a single flash request reads from its surroundings:
the two persisted options, the outcome of the firmware download
(if one is attempted), the esptool subprocess exit code, and whatever
the subprocess writes to its (inherited, uncaptured) output streams. -/
structure Env where
  netpack_version : Option String
  netpack_ports : Option String
  downloadOutcome : Except DlFailure Unit
  flashReturncode : Nat
  flashOutput : String
deriving Repr

/-- Python falsiness of `db.option("_netpack_ports")`: `None` or `""`. -/
def portFalsy : Option String → Bool
  | none => true
  | some p => p == ""

/-- Result of `gevent.subprocess.run`: a `CompletedProcess` with the exit
code and the captured stdout (which is `None` unless output capture was
requested). -/
structure CompletedProcess where
  returncode : Nat
  stdout : Option String
deriving DecidableEq, Repr

set_option linter.unusedVariables false in
/-- `gevent.subprocess.run([sys.executable, "-m", "esptool", "-p", port, ...])`
as called at lines 90-119: no `capture_output`/`stdout` argument is passed,
so the child inherits the parent's streams and `CompletedProcess.stdout`
is `None` regardless of what the process wrote (`outputWritten`). -/
def run_esptool (port : String) (returncode : Nat) (outputWritten : String) :
    CompletedProcess :=
  { returncode := returncode, stdout := none }

/-- `NetpackInstaller._download_firmware` (lines 48-65).  Reads the
`_netpack_version` option (the selected asset URL); if it is `None`,
notifies "Firmware version not selected" and returns.  Otherwise notifies,
fetches the archive and extracts it into the firmware folder; a transport
or archive failure raises out of the method.  On success sets
`self._downloaded = True`. -/
def _download_firmware (env : Env) (s : Installer) :
    Except DlFailure Installer × List Event :=
  match env.netpack_version with
  | none => (Except.ok s, [Event.notify "Firmware version not selected"])
  | some url =>
      match env.downloadOutcome with
      | Except.error e =>
          (Except.error e, [Event.notify "Downloading firmware", Event.httpGet url])
      | Except.ok () =>
          (Except.ok { s with downloaded := true },
            [Event.notify "Downloading firmware", Event.httpGet url,
              Event.extractZip])

/-- `NetpackInstaller.flash_firmware` (lines 67-129).  If `_lock.locked()`,
notifies "Flashing already in progress" and returns at once.  Otherwise
enters `with _lock:` (released on every exit, exceptions included), runs
`_download_firmware` unless `self._downloaded`, then checks the
`_netpack_ports` option; if falsy, notifies "Port not selected" and
returns.  Otherwise runs the esptool subprocess and notifies
"Netpack flashing failed" (also logging `process.stdout` at error
severity) on a non-zero exit, else "Netpack flashing completed". -/
def flash_firmware (env : Env) (s : Installer) :
    Except DlFailure Unit × Installer × List Event :=
  if s.lockHeld then
    (Except.ok (), s, [Event.notify "Flashing already in progress"])
  else
    match (if !s.downloaded then _download_firmware env s else (Except.ok s, [])) with
    | (Except.error e, evs) =>
        (Except.error e, { s with lockHeld := false },
          Event.acquire :: evs ++ [Event.release])
    | (Except.ok s2, evs) =>
        if portFalsy env.netpack_ports then
          (Except.ok (), { s2 with lockHeld := false },
            Event.acquire :: evs ++ [Event.notify "Port not selected", Event.release])
        else
          let port := env.netpack_ports.getD ""
          let process := run_esptool port env.flashReturncode env.flashOutput
          if process.returncode ≠ 0 then
            (Except.ok (), { s2 with lockHeld := false },
              Event.acquire :: evs ++
                [Event.notify "Flashing firmware", Event.runSubprocess port,
                  Event.notify "Netpack flashing failed",
                  Event.logError process.stdout, Event.release])
          else
            (Except.ok (), { s2 with lockHeld := false },
              Event.acquire :: evs ++
                [Event.notify "Flashing firmware", Event.runSubprocess port,
                  Event.notify "Netpack flashing completed", Event.release])

/-- `NetpackInstaller.reset_dowload_status` (lines 178-182, name as in the
source).  `args` is `args["option"]` of the OPTION_SET event, `none` when
the method is called with `args=None`.  Clears `self._downloaded` exactly
when the changed option is `_netpack_version`. -/
def reset_dowload_status (args : Option String) (s : Installer) : Installer :=
  match args with
  | none => s
  | some opt =>
      if opt ≠ "_netpack_version" then s else { s with downloaded := false }

/-- `NetpackInstaller._get_download_versions` (lines 36-46): GET the release
feed with `timeout=5`; any exception from the request is caught and an
empty list returned; otherwise the decoded JSON list of releases. -/
def _get_download_versions (fetchResult : Except FetchExc (List Release)) :
    List Release × List Event :=
  match fetchResult with
  | Except.error _ => ([], [Event.fetchReleases])
  | Except.ok data => (data, [Event.fetchReleases])

/-- The `generate_options` generator inside `update_version_list`
(lines 148-157): skip drafts; skip prereleases unless `allow_beta`;
otherwise yield `(tag_name, assets[0].browser_download_url)` — indexing
`assets[0]` raises `IndexError` on a release with no assets, which
aborts the whole comprehension. -/
def generate_options (allow_beta : Bool) :
    List Release → Except String (List (String × String))
  | [] => Except.ok []
  | v :: rest =>
      if v.draft then generate_options allow_beta rest
      else if !allow_beta && v.prerelease then generate_options allow_beta rest
      else
        match v.assets with
        | [] => Except.error "IndexError"
        | url :: _ =>
            (generate_options allow_beta rest).map
              (fun tl => (v.tag_name, url) :: tl)

/-- `NetpackInstaller.update_version_list` (lines 146-176).  When called
from an OPTION_SET event whose option is not `_netpack_beta`, returns
without doing anything.  Otherwise materialises `generate_options` over
the cached `self._versions` and registers/broadcasts the resulting UI
field.  `allow_beta` is `db.option("_netpack_beta", as_int=True)` read as
a boolean. -/
def update_version_list (args : Option String) (allow_beta : Bool)
    (s : Installer) : Except String (List Event) :=
  match args with
  | some opt =>
      if opt ≠ "_netpack_beta" then Except.ok []
      else
        (generate_options allow_beta s.versions).map
          (fun opts => [Event.registerVersions opts, Event.broadcastUI])
  | none =>
      (generate_options allow_beta s.versions).map
        (fun opts => [Event.registerVersions opts, Event.broadcastUI])

/-- `NetpackInstaller.__init__` (lines 20-34): fetch the release list once
(awaiting the spawned `_get_download_versions` greenlet), store it in
`self._versions` with `self._downloaded = False`, then call
`self.update_version_list()` (with `args=None`). -/
def installer_init (fetchResult : Except FetchExc (List Release))
    (allow_beta : Bool) : Except String Installer × List Event :=
  match update_version_list none allow_beta
      { downloaded := false, versions := (_get_download_versions fetchResult).1,
        lockHeld := false } with
  | Except.error e => (Except.error e, (_get_download_versions fetchResult).2)
  | Except.ok evs =>
      (Except.ok
        { downloaded := false,
          versions := (_get_download_versions fetchResult).1,
          lockHeld := false },
        (_get_download_versions fetchResult).2 ++ evs)

/-- Number of release-feed fetches in a trace. -/
def countFetch (evs : List Event) : Nat :=
  evs.countP (fun e => decide (e = Event.fetchReleases))

/-! ## Interleaving semantics of concurrent flash requests

`flash_firmware` can be triggered concurrently by several greenlets of the
host runtime.  Under gevent's cooperative scheduler the `_lock.locked()`
check (line 68) followed by acquisition of the uncontended semaphore
(line 73) contains no yield point, so per request it is one atomic step;
the body of the `with` block (download, subprocess) does yield, so other
requests can start while it runs.  `Sys n` is the joint state of `n`
potential requests plus the module-level lock, and `Step` the interleaving
semantics read off lines 67-129. -/

/-- The phase a single flash request is in.  `downloading` covers the
download step inside the `with` block (lines 75-76), `flashing` the port
check and subprocess (lines 78-129). -/
inductive Phase where
  | idle
  | downloading
  | flashing
  | rejected
  | done
deriving DecidableEq, Repr

/-- The request is executing the guarded download+flash sequence. -/
def Phase.active : Phase → Bool
  | Phase.downloading => true
  | Phase.flashing => true
  | _ => false

/-- Joint state of `n` potential flash requests and the module-level
`_lock`. -/
structure Sys (n : Nat) where
  lockHeld : Bool
  phase : Fin n → Phase

/-- Initially the lock is free and no request has started. -/
def initSys (n : Nat) : Sys n :=
  { lockHeld := false, phase := fun _ => Phase.idle }

/-- One scheduler step of the system of flash requests:
* `startBusy`: a request finds `_lock.locked()` and returns at once
  (lines 68-71) — only its own phase changes, nothing else;
* `startAcquire`: the check-then-acquire step when the lock is free
  (lines 68, 73), entering the guarded sequence;
* `beginFlashing`: the request finishes the download step and moves on to
  the port check/subprocess part;
* `exitDownloading`: the request leaves the `with` block from the download
  part (port-not-selected return or a propagating download exception),
  releasing the lock;
* `exitFlashing`: the request leaves the `with` block after the subprocess
  (success or failure), releasing the lock. -/
inductive Step {n : Nat} : Sys n → Sys n → Prop where
  | startBusy (s : Sys n) (i : Fin n) :
      s.phase i = Phase.idle → s.lockHeld = true →
      Step s { s with phase := Function.update s.phase i Phase.rejected }
  | startAcquire (s : Sys n) (i : Fin n) :
      s.phase i = Phase.idle → s.lockHeld = false →
      Step s { lockHeld := true,
               phase := Function.update s.phase i Phase.downloading }
  | beginFlashing (s : Sys n) (i : Fin n) :
      s.phase i = Phase.downloading →
      Step s { s with phase := Function.update s.phase i Phase.flashing }
  | exitDownloading (s : Sys n) (i : Fin n) :
      s.phase i = Phase.downloading →
      Step s { lockHeld := false,
               phase := Function.update s.phase i Phase.done }
  | exitFlashing (s : Sys n) (i : Fin n) :
      s.phase i = Phase.flashing →
      Step s { lockHeld := false,
               phase := Function.update s.phase i Phase.done }

/-- States reachable from the initial system state. -/
def Reachable {n : Nat} (s : Sys n) : Prop :=
  Relation.ReflTransGen Step (initSys n) s

/-! ## Concrete sample instances used by witnesses and counterexamples -/

/-- A two-request system after request 0 has passed check-then-acquire. -/
def sysAcquired : Sys 2 :=
  { lockHeld := true,
    phase := Function.update (initSys 2).phase (0 : Fin 2) Phase.downloading }

/-- Coordinator state with nothing downloaded and the gate free. -/
def stFree : Installer :=
  { downloaded := false, versions := [], lockHeld := false }

/-- Coordinator state while another request holds the gate. -/
def stBusy : Installer :=
  { downloaded := false, versions := [], lockHeld := true }

/-- Coordinator state after a successful download (cache hit), gate free. -/
def stCached : Installer :=
  { downloaded := true, versions := [], lockHeld := false }

/-- Environment: version selected, port selected, download succeeds,
esptool exits 0. -/
def envOk : Env :=
  { netpack_version := some "https://example.invalid/fw.zip",
    netpack_ports := some "COM3",
    downloadOutcome := Except.ok (),
    flashReturncode := 0,
    flashOutput := "" }

/-- Environment: no port configured, download succeeds. -/
def envNoPortOk : Env :=
  { netpack_version := some "https://example.invalid/fw.zip",
    netpack_ports := none,
    downloadOutcome := Except.ok (),
    flashReturncode := 0,
    flashOutput := "" }

/-- Environment: no port configured and the download raises a transport
failure. -/
def envNoPortDlRaises : Env :=
  { netpack_version := some "https://example.invalid/fw.zip",
    netpack_ports := none,
    downloadOutcome := Except.error DlFailure.network,
    flashReturncode := 0,
    flashOutput := "" }

/-- Environment: esptool exits 1 after writing "flash timeout" to its
(inherited, uncaptured) output. -/
def envFlashFails : Env :=
  { netpack_version := some "https://example.invalid/fw.zip",
    netpack_ports := some "COM3",
    downloadOutcome := Except.ok (),
    flashReturncode := 1,
    flashOutput := "flash timeout" }

/-- Environment: no firmware version selected but a port configured. -/
def envNoVersion : Env :=
  { netpack_version := none,
    netpack_ports := some "COM3",
    downloadOutcome := Except.ok (),
    flashReturncode := 0,
    flashOutput := "" }

/-- Environment: version selected, port selected, the archive is corrupt. -/
def envDlRaises : Env :=
  { netpack_version := some "https://example.invalid/fw.zip",
    netpack_ports := some "COM3",
    downloadOutcome := Except.error DlFailure.archive,
    flashReturncode := 0,
    flashOutput := "" }

/-- The three releases of the spec's filtering example, each with a single
asset. -/
def demo_releases : List Release :=
  [ { tag_name := "v1", draft := true, prerelease := false,
      assets := ["https://example.invalid/v1.zip"] },
    { tag_name := "v2", draft := false, prerelease := true,
      assets := ["https://example.invalid/v2.zip"] },
    { tag_name := "v3", draft := false, prerelease := false,
      assets := ["https://example.invalid/v3.zip"] } ]

/-- The mutual-exclusion invariant: when the lock is free no request is in
the guarded sequence, and at most one request is in it at any time. -/
def MutexInv {n : Nat} (s : Sys n) : Prop :=
  (s.lockHeld = false → ∀ i, (s.phase i).active = false) ∧
  (∀ i j, (s.phase i).active = true → (s.phase j).active = true → i = j)

lemma mutexInv_init (n : Nat) : MutexInv (initSys n) := by
  constructor
  · intro _ i
    rfl
  · intro i j hi _
    simp [initSys, Phase.active] at hi

lemma mutexInv_step {n : Nat} {s t : Sys n} (inv : MutexInv s)
    (st : Step s t) : MutexInv t := by
  obtain ⟨free, uniq⟩ := inv
  cases st with
  | startBusy i hidle hlock =>
      refine ⟨?_, ?_⟩
      · intro hfree
        rw [hlock] at hfree
        exact absurd hfree (by simp)
      · intro j k hj hk
        simp only [Function.update_apply] at hj hk
        split at hj
        · simp [Phase.active] at hj
        · split at hk
          · simp [Phase.active] at hk
          · exact uniq j k hj hk
  | startAcquire i hidle hlock =>
      refine ⟨?_, ?_⟩
      · intro hfree
        exact absurd hfree (by simp)
      · intro j k hj hk
        simp only [Function.update_apply] at hj hk
        rcases Decidable.em (j = i) with hji | hji
        · rcases Decidable.em (k = i) with hki | hki
          · rw [hji, hki]
          · rw [if_neg hki] at hk
            exact absurd hk (by simp [free hlock k])
        · rw [if_neg hji] at hj
          exact absurd hj (by simp [free hlock j])
  | beginFlashing i hdl =>
      have hactive : (s.phase i).active = true := by
        rw [hdl]; rfl
      refine ⟨?_, ?_⟩
      · intro hfree j
        exact absurd (free hfree i) (by simp [hactive])
      · intro j k hj hk
        simp only [Function.update_apply] at hj hk
        rcases Decidable.em (j = i) with hji | hji
        · rcases Decidable.em (k = i) with hki | hki
          · rw [hji, hki]
          · rw [if_neg hki] at hk
            rw [hji]
            exact (uniq k i hk hactive).symm
        · rw [if_neg hji] at hj
          rcases Decidable.em (k = i) with hki | hki
          · rw [hki]
            exact uniq j i hj hactive
          · rw [if_neg hki] at hk
            exact uniq j k hj hk
  | exitDownloading i hdl =>
      have hactive : (s.phase i).active = true := by
        rw [hdl]; rfl
      refine ⟨?_, ?_⟩
      · intro _ j
        simp only [Function.update_apply]
        split
        · rfl
        · rename_i hji
          rcases hb : (s.phase j).active with _ | _
          · rfl
          · exact absurd (uniq j i hb hactive) hji
      · intro j k hj hk
        simp only [Function.update_apply] at hj hk
        split at hj
        · simp [Phase.active] at hj
        · rename_i hji
          exact absurd (uniq j i hj hactive) hji
  | exitFlashing i hfl =>
      have hactive : (s.phase i).active = true := by
        rw [hfl]; rfl
      refine ⟨?_, ?_⟩
      · intro _ j
        simp only [Function.update_apply]
        split
        · rfl
        · rename_i hji
          rcases hb : (s.phase j).active with _ | _
          · rfl
          · exact absurd (uniq j i hb hactive) hji
      · intro j k hj hk
        simp only [Function.update_apply] at hj hk
        split at hj
        · simp [Phase.active] at hj
        · rename_i hji
          exact absurd (uniq j i hj hactive) hji

lemma mutexInv_reachable {n : Nat} {s : Sys n} (h : Reachable s) :
    MutexInv s := by
  induction h with
  | refl => exact mutexInv_init n
  | tail _ st ih => exact mutexInv_step ih st

/-- Exhaustive shape of a non-busy `flash_firmware` run: the trace is the
acquisition, then the body of the `with` block, then the release; the final
state has the gate free and `_versions` untouched. -/
lemma flash_shape (env : Env) (s : Installer) (h : s.lockHeld = false) :
    ∃ r s2 body,
      flash_firmware env s = (r, s2, Event.acquire :: body ++ [Event.release]) ∧
      s2.lockHeld = false ∧
      Event.acquire ∉ body ∧ Event.release ∉ body ∧
      s2.versions = s.versions := by
  rcases hd : s.downloaded with _ | _
  · rcases hv : env.netpack_version with _ | url
    · by_cases hp : portFalsy env.netpack_ports = true
      · refine ⟨Except.ok (), { s with lockHeld := false },
          [Event.notify "Firmware version not selected",
            Event.notify "Port not selected"], ?_, rfl, by simp, by simp, rfl⟩
        simp [flash_firmware, _download_firmware, h, hd, hv, hp]
      · by_cases hr : env.flashReturncode = 0
        · refine ⟨Except.ok (), { s with lockHeld := false },
            [Event.notify "Firmware version not selected",
              Event.notify "Flashing firmware",
              Event.runSubprocess (env.netpack_ports.getD ""),
              Event.notify "Netpack flashing completed"],
            ?_, rfl, by simp, by simp, rfl⟩
          simp [flash_firmware, _download_firmware, run_esptool, h, hd, hv, hp, hr]
        · refine ⟨Except.ok (), { s with lockHeld := false },
            [Event.notify "Firmware version not selected",
              Event.notify "Flashing firmware",
              Event.runSubprocess (env.netpack_ports.getD ""),
              Event.notify "Netpack flashing failed", Event.logError none],
            ?_, rfl, by simp, by simp, rfl⟩
          simp [flash_firmware, _download_firmware, run_esptool, h, hd, hv, hp, hr]
    · rcases ho : env.downloadOutcome with e | u
      · refine ⟨Except.error e, { s with lockHeld := false },
          [Event.notify "Downloading firmware", Event.httpGet url],
          ?_, rfl, by simp, by simp, rfl⟩
        simp [flash_firmware, _download_firmware, h, hd, hv, ho]
      · by_cases hp : portFalsy env.netpack_ports = true
        · refine ⟨Except.ok (),
            { s with downloaded := true, lockHeld := false },
            [Event.notify "Downloading firmware", Event.httpGet url,
              Event.extractZip, Event.notify "Port not selected"],
            ?_, rfl, by simp, by simp, rfl⟩
          simp [flash_firmware, _download_firmware, h, hd, hv, ho, hp]
        · by_cases hr : env.flashReturncode = 0
          · refine ⟨Except.ok (),
              { s with downloaded := true, lockHeld := false },
              [Event.notify "Downloading firmware", Event.httpGet url,
                Event.extractZip, Event.notify "Flashing firmware",
                Event.runSubprocess (env.netpack_ports.getD ""),
                Event.notify "Netpack flashing completed"],
              ?_, rfl, by simp, by simp, rfl⟩
            simp [flash_firmware, _download_firmware, run_esptool,
              h, hd, hv, ho, hp, hr]
          · refine ⟨Except.ok (),
              { s with downloaded := true, lockHeld := false },
              [Event.notify "Downloading firmware", Event.httpGet url,
                Event.extractZip, Event.notify "Flashing firmware",
                Event.runSubprocess (env.netpack_ports.getD ""),
                Event.notify "Netpack flashing failed", Event.logError none],
              ?_, rfl, by simp, by simp, rfl⟩
            simp [flash_firmware, _download_firmware, run_esptool,
              h, hd, hv, ho, hp, hr]
  · by_cases hp : portFalsy env.netpack_ports = true
    · refine ⟨Except.ok (), { s with lockHeld := false },
        [Event.notify "Port not selected"], ?_, rfl, by simp, by simp, rfl⟩
      simp [flash_firmware, h, hd, hp]
    · by_cases hr : env.flashReturncode = 0
      · refine ⟨Except.ok (), { s with lockHeld := false },
          [Event.notify "Flashing firmware",
            Event.runSubprocess (env.netpack_ports.getD ""),
            Event.notify "Netpack flashing completed"],
          ?_, rfl, by simp, by simp, rfl⟩
        simp [flash_firmware, run_esptool, h, hd, hp, hr]
      · refine ⟨Except.ok (), { s with lockHeld := false },
          [Event.notify "Flashing firmware",
            Event.runSubprocess (env.netpack_ports.getD ""),
            Event.notify "Netpack flashing failed", Event.logError none],
          ?_, rfl, by simp, by simp, rfl⟩
        simp [flash_firmware, run_esptool, h, hd, hp, hr]

/-- Claim C1: in every reachable interleaving of concurrent flash requests,
at most one request is executing the guarded download+flash sequence
(the `downloading`/`flashing` phases) at any time; and a request that finds
the gate held returns at once with only the busy notification — no
download, no subprocess invocation, no state change, neither queued nor
blocked. -/
theorem claim1_single_flight :
    (∀ (n : Nat) (s : Sys n), Reachable s →
      ∀ i j : Fin n, (s.phase i).active = true →
        (s.phase j).active = true → i = j) ∧
    (∀ (env : Env) (st : Installer), st.lockHeld = true →
      flash_firmware env st =
        (Except.ok (), st, [Event.notify "Flashing already in progress"])) := by
  constructor
  · intro n s h i j hi hj
    exact (mutexInv_reachable h).2 i j hi hj
  · intro env st h
    simp [flash_firmware, h]

/-- Witness for C1: a concrete reachable two-request system with request 0
in the guarded sequence, and a concrete busy rejection. -/
theorem claim1_single_flight_witness :
    ((sysAcquired.phase 0).active = true ∧ (0 : Fin 2) = 0) ∧
    flash_firmware envOk stBusy =
      (Except.ok (), stBusy, [Event.notify "Flashing already in progress"]) :=
  ⟨⟨by decide,
    claim1_single_flight.1 2 sysAcquired
      (Relation.ReflTransGen.single
        (Step.startAcquire (initSys 2) 0 rfl rfl))
      0 0 (by decide) (by decide)⟩,
    claim1_single_flight.2 envOk stBusy rfl⟩

/-- Claim C2: a flash request that passes the busy check acquires the gate
exactly once, and the gate is released at the very end of every exit path
(success, port-not-selected return, flash failure, and a propagating
download exception alike), leaving the gate free in the final state; a
request rejected as busy never acquires the gate. -/
theorem claim2_gate_released :
    (∀ (env : Env) (s : Installer), s.lockHeld = false →
      (flash_firmware env s).2.1.lockHeld = false ∧
      ∃ body,
        (flash_firmware env s).2.2 = Event.acquire :: body ++ [Event.release] ∧
        Event.acquire ∉ body ∧ Event.release ∉ body) ∧
    (∀ (env : Env) (s : Installer), s.lockHeld = true →
      flash_firmware env s =
        (Except.ok (), s, [Event.notify "Flashing already in progress"])) := by
  constructor
  · intro env s h
    obtain ⟨r, s2, body, heq, hlock, hna, hnr, _⟩ := flash_shape env s h
    rw [heq]
    exact ⟨hlock, body, rfl, hna, hnr⟩
  · intro env s h
    simp [flash_firmware, h]

/-- Counterexample to C3 as stated: a request with no port configured in
which the download step fails by raising (a transport failure) does not
fail with the port-not-selected error — no such notification is produced;
the exception propagates instead.  So "fails with the port-not-selected
error ... regardless of whether the download step succeeded, was skipped,
or failed" does not hold for the raising download failures. -/
theorem claim3_counterexample :
    portFalsy envNoPortDlRaises.netpack_ports = true ∧
    stFree.lockHeld = false ∧
    (flash_firmware envNoPortDlRaises stFree).1 =
      Except.error DlFailure.network ∧
    Event.notify "Port not selected" ∉
      (flash_firmware envNoPortDlRaises stFree).2.2 := by
  refine ⟨rfl, rfl, rfl, ?_⟩
  decide

/-- Claim C3 (amended): for a non-busy flash request with no serial port
configured, the flashing subprocess is never invoked; whenever the
download step does not raise (it was skipped, succeeded, or returned after
the version-not-selected notification), the request fails with the
port-not-selected notification; and the port check is performed after the
download step: when a download is attempted its events precede the
port-not-selected notification in the trace. -/
theorem claim3_port_check (env : Env) (s : Installer)
    (hl : s.lockHeld = false) (hp : portFalsy env.netpack_ports = true) :
    (∀ p, Event.runSubprocess p ∉ (flash_firmware env s).2.2) ∧
    ((flash_firmware env s).1 = Except.ok () →
      Event.notify "Port not selected" ∈ (flash_firmware env s).2.2) ∧
    (∀ url, s.downloaded = false → env.netpack_version = some url →
      env.downloadOutcome = Except.ok () →
      flash_firmware env s =
        (Except.ok (), { s with downloaded := true, lockHeld := false },
          [Event.acquire, Event.notify "Downloading firmware",
            Event.httpGet url, Event.extractZip,
            Event.notify "Port not selected", Event.release])) := by
  rcases hd : s.downloaded with _ | _
  · rcases hv : env.netpack_version with _ | url
    · refine ⟨?_, ?_, ?_⟩
      · intro p
        simp [flash_firmware, _download_firmware, hl, hd, hv, hp]
      · intro _
        simp [flash_firmware, _download_firmware, hl, hd, hv, hp]
      · intro url2 _ hvv _
        cases hvv
    · rcases ho : env.downloadOutcome with e | u
      · refine ⟨?_, ?_, ?_⟩
        · intro p
          simp [flash_firmware, _download_firmware, hl, hd, hv, ho]
        · intro hok
          simp [flash_firmware, _download_firmware, hl, hd, hv, ho] at hok
        · intro url2 _ _ hoo
          cases hoo
      · refine ⟨?_, ?_, ?_⟩
        · intro p
          simp [flash_firmware, _download_firmware, hl, hd, hv, ho, hp]
        · intro _
          simp [flash_firmware, _download_firmware, hl, hd, hv, ho, hp]
        · intro url2 _ hvv _
          injection hvv with hu
          subst hu
          simp [flash_firmware, _download_firmware, hl, hd, hv, ho, hp]
  · refine ⟨?_, ?_, ?_⟩
    · intro p
      simp [flash_firmware, hl, hd, hp]
    · intro _
      simp [flash_firmware, hl, hd, hp]
    · intro url hdd _ _
      simp at hdd

/-- Witness for the amended C3 at a concrete request: port unset, version
selected, download succeeds. -/
theorem claim3_port_check_witness :
    stFree.lockHeld = false ∧
    portFalsy envNoPortOk.netpack_ports = true ∧
    flash_firmware envNoPortOk stFree =
      (Except.ok (), { stFree with downloaded := true, lockHeld := false },
        [Event.acquire, Event.notify "Downloading firmware",
          Event.httpGet "https://example.invalid/fw.zip", Event.extractZip,
          Event.notify "Port not selected", Event.release]) :=
  ⟨rfl, rfl,
    (claim3_port_check envNoPortOk stFree rfl rfl).2.2
      "https://example.invalid/fw.zip" rfl rfl rfl⟩

/-- Claim C4: a successful download sets `self._downloaded`; a later flash
request with the flag set performs no fetch at all (cache hit);
`reset_dowload_status` clears the flag exactly on a `_netpack_version`
option change, a change of any other option leaves it untouched; and after
such a reset the next flash request re-invokes the fetch. -/
theorem claim4_download_cache :
    (∀ (env : Env) (s : Installer) (url : String),
      env.netpack_version = some url → env.downloadOutcome = Except.ok () →
      _download_firmware env s =
        (Except.ok { s with downloaded := true },
          [Event.notify "Downloading firmware", Event.httpGet url,
            Event.extractZip])) ∧
    (∀ (env : Env) (s : Installer), s.lockHeld = false →
      s.downloaded = true →
      ∀ u, Event.httpGet u ∉ (flash_firmware env s).2.2) ∧
    (∀ s : Installer,
      reset_dowload_status (some "_netpack_version") s =
        { s with downloaded := false }) ∧
    (∀ (s : Installer) (opt : String), opt ≠ "_netpack_version" →
      reset_dowload_status (some opt) s = s) ∧
    (∀ (env : Env) (s : Installer) (url : String), s.lockHeld = false →
      env.netpack_version = some url →
      Event.httpGet url ∈
        (flash_firmware env
          (reset_dowload_status (some "_netpack_version") s)).2.2) := by
  refine ⟨?_, ?_, ?_, ?_, ?_⟩
  · intro env s url hv ho
    simp [_download_firmware, hv, ho]
  · intro env s hl hd u
    by_cases hp : portFalsy env.netpack_ports = true
    · simp [flash_firmware, hl, hd, hp]
    · by_cases hr : env.flashReturncode = 0
      · simp [flash_firmware, run_esptool, hl, hd, hp, hr]
      · simp [flash_firmware, run_esptool, hl, hd, hp, hr]
  · intro s
    simp [reset_dowload_status]
  · intro s opt h
    simp [reset_dowload_status, h]
  · intro env s url hl hv
    rcases ho : env.downloadOutcome with e | u
    · simp [flash_firmware, _download_firmware, reset_dowload_status,
        hl, hv, ho]
    · by_cases hp : portFalsy env.netpack_ports = true
      · simp [flash_firmware, _download_firmware, reset_dowload_status,
          hl, hv, ho, hp]
      · by_cases hr : env.flashReturncode = 0
        · simp [flash_firmware, _download_firmware, reset_dowload_status,
            run_esptool, hl, hv, ho, hp, hr]
        · simp [flash_firmware, _download_firmware, reset_dowload_status,
            run_esptool, hl, hv, ho, hp, hr]

/-- Witness for C4 at concrete requests: a successful download, a cache
hit, the two reset cases, and the re-download after a version change. -/
theorem claim4_download_cache_witness :
    _download_firmware envOk stFree =
      (Except.ok { stFree with downloaded := true },
        [Event.notify "Downloading firmware",
          Event.httpGet "https://example.invalid/fw.zip",
          Event.extractZip]) ∧
    Event.httpGet "https://example.invalid/fw.zip" ∉
      (flash_firmware envOk stCached).2.2 ∧
    reset_dowload_status (some "_netpack_version") stCached =
      { stCached with downloaded := false } ∧
    reset_dowload_status (some "_netpack_beta") stCached = stCached ∧
    Event.httpGet "https://example.invalid/fw.zip" ∈
      (flash_firmware envOk
        (reset_dowload_status (some "_netpack_version") stCached)).2.2 :=
  ⟨claim4_download_cache.1 envOk stFree "https://example.invalid/fw.zip"
      rfl rfl,
    claim4_download_cache.2.1 envOk stCached rfl rfl
      "https://example.invalid/fw.zip",
    claim4_download_cache.2.2.1 stCached,
    claim4_download_cache.2.2.2.1 stCached "_netpack_beta" (by decide),
    claim4_download_cache.2.2.2.2 envOk stCached
      "https://example.invalid/fw.zip" rfl rfl⟩

/-- Claim C5: `generate_options` drops draft releases unconditionally and
prerelease releases exactly when the beta flag is disabled, yielding
(tag, first-asset URL) pairs in source order; on the spec's three-release
example the selectable tags are exactly ["v3"] with beta disabled and
["v2", "v3"] with beta enabled. -/
theorem claim5_release_filtering :
    (∀ (allow_beta : Bool) (versions : List Release),
      (∀ v ∈ versions, v.assets ≠ []) →
      generate_options allow_beta versions =
        Except.ok
          ((versions.filter
              (fun v => !v.draft && (allow_beta || !v.prerelease))).map
            (fun v => (v.tag_name, v.assets.headI)))) ∧
    (generate_options false demo_releases).map (fun l => l.map Prod.fst) =
      Except.ok ["v3"] ∧
    (generate_options true demo_releases).map (fun l => l.map Prod.fst) =
      Except.ok ["v2", "v3"] := by
  refine ⟨?_, by rfl, by rfl⟩
  intro allow_beta versions h
  induction versions with
  | nil => simp [generate_options]
  | cons v rest ih =>
      have hv : v.assets ≠ [] := h v (List.mem_cons_self v rest)
      have hrest : ∀ w ∈ rest, w.assets ≠ [] := fun w hw =>
        h w (List.mem_cons_of_mem v hw)
      have ih2 := ih hrest
      rcases hd : v.draft with _ | _
      · rcases ha : v.assets with _ | ⟨url, tl⟩
        · exact absurd ha hv
        · rcases hb : allow_beta with _ | _
          · rcases hpre : v.prerelease with _ | _
            · subst hb
              simp [generate_options, Except.map, hd, ha, hpre, ih2]
            · subst hb
              simp [generate_options, Except.map, hd, ha, hpre, ih2]
          · subst hb
            simp [generate_options, Except.map, hd, ha, ih2]
      · simp [generate_options, hd, ih2]

/-- Witness for C5: the general filtering law applied to the spec's
three-release example with the beta flag enabled. -/
theorem claim5_release_filtering_witness :
    (∀ v ∈ demo_releases, v.assets ≠ []) ∧
    generate_options true demo_releases =
      Except.ok
        ((demo_releases.filter
            (fun v => !v.draft && (true || !v.prerelease))).map
          (fun v => (v.tag_name, v.assets.headI))) :=
  ⟨by decide, claim5_release_filtering.1 true demo_releases (by decide)⟩

/-- Claim C6: a release-metadata fetch that fails at transport level or
exceeds its 5-second timeout makes `_get_download_versions` return the
empty release list to the caller instead of propagating the error. -/
theorem claim6_metadata_failure_empty (e : FetchExc) :
    _get_download_versions (Except.error e) = ([], [Event.fetchReleases]) :=
  rfl

/-- Witness for C2 at a concrete free-gate run and a concrete busy
rejection. -/
theorem claim2_gate_released_witness :
    ((flash_firmware envOk stFree).2.1.lockHeld = false ∧
      ∃ body,
        (flash_firmware envOk stFree).2.2 =
          Event.acquire :: body ++ [Event.release] ∧
        Event.acquire ∉ body ∧ Event.release ∉ body) ∧
    flash_firmware envOk stBusy =
      (Except.ok (), stBusy, [Event.notify "Flashing already in progress"]) :=
  ⟨claim2_gate_released.1 envOk stFree rfl,
    claim2_gate_released.2 envOk stBusy rfl⟩

/-- A successfully returning `update_version_list` call performs no
release-feed fetch. -/
lemma update_version_list_no_fetch (args : Option String) (allow_beta : Bool)
    (s : Installer) (evs : List Event)
    (h : update_version_list args allow_beta s = Except.ok evs) :
    countFetch evs = 0 := by
  rcases args with _ | opt
  · rcases hg : generate_options allow_beta s.versions with e | opts
    · simp [update_version_list, hg, Except.map] at h
    · simp [update_version_list, hg, Except.map] at h
      rw [← h]
      rfl
  · by_cases hb : opt ≠ "_netpack_beta"
    · simp [update_version_list, hb] at h
      subst h
      rfl
    · rcases hg : generate_options allow_beta s.versions with e | opts
      · simp [update_version_list, hb, hg, Except.map] at h
      · simp [update_version_list, hb, hg, Except.map] at h
        rw [← h]
        rfl

/-- Claim C7, code behaviour at the failing input: when esptool exits
non-zero after writing "flash timeout" to its output, the request does
yield a failure notification (never a silent success), but the
notification is the fixed string "Netpack flashing failed" and the value
logged at error severity is `process.stdout`, which is `none` because the
subprocess was run without output capture — the text "flash timeout" is
neither part of the error signal nor logged. -/
theorem claim7_flash_failure_output :
    run_esptool "COM3" 1 "flash timeout" =
      { returncode := 1, stdout := none } ∧
    flash_firmware envFlashFails stCached =
      (Except.ok (), stCached,
        [Event.acquire, Event.notify "Flashing firmware",
          Event.runSubprocess "COM3",
          Event.notify "Netpack flashing failed",
          Event.logError none, Event.release]) ∧
    Event.notify "Netpack flashing failed" ∈
      (flash_firmware envFlashFails stCached).2.2 ∧
    Event.logError (some "flash timeout") ∉
      (flash_firmware envFlashFails stCached).2.2 := by
  refine ⟨rfl, rfl, ?_, ?_⟩
  · decide
  · decide

/-- Claim C8, code behaviour at the failing input: with no firmware version
selected but a port configured, `_download_firmware` notifies
"Firmware version not selected" and returns normally, and the request then
continues — the port check runs and the flashing subprocess is invoked, so
the download error is not terminal for the request. -/
theorem claim8_download_error_not_terminal :
    flash_firmware envNoVersion stFree =
      (Except.ok (), stFree,
        [Event.acquire, Event.notify "Firmware version not selected",
          Event.notify "Flashing firmware", Event.runSubprocess "COM3",
          Event.notify "Netpack flashing completed", Event.release]) ∧
    Event.runSubprocess "COM3" ∈
      (flash_firmware envNoVersion stFree).2.2 := by
  refine ⟨rfl, ?_⟩
  decide

/-- Counterexample to C9 as stated: a corrupt-archive failure of the
firmware fetch is not surfaced as any notification, and control does not
return normally — `flash_firmware` terminates with the propagating
exception; the trace shows the only notification emitted is
"Downloading firmware". -/
theorem claim9_counterexample :
    (flash_firmware envDlRaises stFree).1 = Except.error DlFailure.archive ∧
    (flash_firmware envDlRaises stFree).2.2 =
      [Event.acquire, Event.notify "Downloading firmware",
        Event.httpGet "https://example.invalid/fw.zip", Event.release] :=
  ⟨rfl, rfl⟩

/-- Claim C9 (amended): a transport or archive failure of the firmware
fetch raises out of `_download_firmware` and propagates out of
`flash_firmware` as an exception; no failure notification is produced
(the only notification in the trace is "Downloading firmware"), and the
gate is still released on this exit path by the context manager. -/
theorem claim9_download_failure_propagates (env : Env) (s : Installer)
    (e : DlFailure) (url : String) (hl : s.lockHeld = false)
    (hd : s.downloaded = false) (hv : env.netpack_version = some url)
    (ho : env.downloadOutcome = Except.error e) :
    flash_firmware env s =
      (Except.error e, { s with lockHeld := false },
        [Event.acquire, Event.notify "Downloading firmware",
          Event.httpGet url, Event.release]) := by
  simp [flash_firmware, _download_firmware, hl, hd, hv, ho]

/-- Witness for the amended C9 at a concrete corrupt-archive request. -/
theorem claim9_download_failure_propagates_witness :
    stFree.lockHeld = false ∧
    flash_firmware envDlRaises stFree =
      (Except.error DlFailure.archive, { stFree with lockHeld := false },
        [Event.acquire, Event.notify "Downloading firmware",
          Event.httpGet "https://example.invalid/fw.zip", Event.release]) :=
  ⟨rfl, claim9_download_failure_propagates envDlRaises stFree
      DlFailure.archive "https://example.invalid/fw.zip" rfl rfl rfl rfl⟩

/-- Claim C10: the release list is fetched exactly once, at coordinator
construction; every later `update_version_list` call performs no fetch and
either returns early (option other than `_netpack_beta`) or re-filters the
cached `self._versions`; and neither `flash_firmware` nor
`reset_dowload_status` ever modifies the cached list. -/
theorem claim10_versions_cached :
    (∀ (fetchResult : Except FetchExc (List Release)) (allow_beta : Bool),
      countFetch (installer_init fetchResult allow_beta).2 = 1) ∧
    (∀ (args : Option String) (allow_beta : Bool) (s : Installer)
        (evs : List Event),
      update_version_list args allow_beta s = Except.ok evs →
      countFetch evs = 0) ∧
    (∀ (args : Option String) (allow_beta : Bool) (s : Installer),
      update_version_list args allow_beta s = Except.ok [] ∨
      update_version_list args allow_beta s =
        (generate_options allow_beta s.versions).map
          (fun opts => [Event.registerVersions opts, Event.broadcastUI])) ∧
    (∀ (env : Env) (s : Installer),
      (flash_firmware env s).2.1.versions = s.versions) ∧
    (∀ (args : Option String) (s : Installer),
      (reset_dowload_status args s).versions = s.versions) := by
  refine ⟨?_, ?_, ?_, ?_, ?_⟩
  · intro fetchResult allow_beta
    have hf : countFetch (_get_download_versions fetchResult).2 = 1 := by
      rcases fetchResult with e | d <;> rfl
    rcases hu : update_version_list none allow_beta
        { downloaded := false,
          versions := (_get_download_versions fetchResult).1,
          lockHeld := false } with e | evs
    · simp only [installer_init, hu]
      exact hf
    · have h0 : countFetch evs = 0 :=
        update_version_list_no_fetch _ _ _ _ hu
      simp only [installer_init, hu]
      show countFetch ((_get_download_versions fetchResult).2 ++ evs) = 1
      rw [countFetch, List.countP_append]
      rw [countFetch] at hf h0
      rw [hf, h0]
  · exact fun args allow_beta s evs h =>
      update_version_list_no_fetch args allow_beta s evs h
  · intro args allow_beta s
    rcases args with _ | opt
    · right
      rfl
    · by_cases hb : opt ≠ "_netpack_beta"
      · left
        simp [update_version_list, hb]
      · right
        simp [update_version_list, hb]
  · intro env s
    rcases hl : s.lockHeld with _ | _
    · obtain ⟨r, s2, body, heq, _, _, _, hver⟩ := flash_shape env s hl
      rw [heq]
      exact hver
    · simp [flash_firmware, hl]
  · intro args s
    rcases args with _ | opt
    · rfl
    · by_cases h : opt ≠ "_netpack_version"
      · simp [reset_dowload_status, h]
      · simp [reset_dowload_status, h]

/-- Witness for C10: one fetch at construction on a concrete release list,
and a concrete fetch-free `update_version_list` run. -/
theorem claim10_versions_cached_witness :
    countFetch (installer_init (Except.ok demo_releases) true).2 = 1 ∧
    update_version_list none true stCached =
      Except.ok [Event.registerVersions [], Event.broadcastUI] ∧
    countFetch [Event.registerVersions [], Event.broadcastUI] = 0 :=
  ⟨claim10_versions_cached.1 (Except.ok demo_releases) true, rfl,
    claim10_versions_cached.2.1 none true stCached
      [Event.registerVersions [], Event.broadcastUI] rfl⟩

end NetpackInstaller
